import Mathlib

deriving instance DecidableEq for Except

/- Verification development for the `rolldecayestimators` library.

   Shallow embedding of `rolldecayestimators/estimator.py` (class `RollDecay`)
   and `rolldecayestimators/direct_estimator_cubic.py` (class `EstimatorCubic`
   and its subclasses), together with theorems settling the frozen claims
   about the fitting engine, the simulator, the spectral natural-frequency
   estimate and the dimensionalization step.

   Numeric values handled by the estimator are embedded as rationals (python
   floats are treated as exact arithmetic; the overflow-free ranges exercised
   here make that faithful), except where `numpy.inf` can appear, which is
   modelled by the `PyFloat` type, and except for the Fourier pipeline, whose
   values are irrational (multiples of pi) and are embedded over the reals. -/

/-- A python float as stored in the residual series: either a finite value or
`numpy.inf` / `-numpy.inf` (`estimator_integration` writes `np.inf` columns,
`RollDecay.bounds` uses `-np.inf, np.inf`). -/
inductive PyFloat where
  | ofRat (q : ℚ)
  | inf
  | negInf
deriving DecidableEq, Repr

/-- Association-list read, python `d[k]` / `d.get(k)`: first binding wins
(python dicts hold each key once, and every dict built below does too). -/
def dictLookup (k : String) (d : List (String × α)) : Option α :=
  (d.find? (fun p => p.1 == k)).map Prod.snd

/-- Python dict assignment `d[k] = v`: replaces the value when the key is
already present, appends the binding otherwise. -/
def dictInsert (k : String) (v : α) (d : List (String × α)) : List (String × α) :=
  if d.any (fun p => p.1 == k) then d.map (fun p => if p.1 == k then (k, v) else p)
  else d ++ [(k, v)]

/-- Python `base.update(upd)`: every binding of `upd` is written into `base`. -/
def dictUpdate (base upd : List (String × α)) : List (String × α) :=
  upd.foldl (fun acc p => dictInsert p.1 p.2 acc) base

/-- The keys of a dict. -/
def dictKeys (d : List (String × α)) : List String := d.map Prod.fst

/-- Errors that can escape the simulation call chain
(`RollDecay._simulate` / `roll_decay_time_step`):
`configError` stands for the `TypeError` raised by python when
`calculate_acceleration(phi1d=..., phi=..., **parameters)` receives an
unexpected keyword argument or misses a required one;
`simulationFailed` is the `ValueError('Simulation failed')` raised by
`_simulate` when `solve_ivp` reports no success;
`indexError` is the `IndexError` of `t[0]` on an empty time grid. -/
inductive SimError where
  | configError
  | simulationFailed
  | indexError
deriving DecidableEq, Repr

/-- A model variant: the signature of its lambdified closed-form acceleration
function (`inspect.signature(self.calculate_acceleration)` — only the name
set matters, the inspection order is unspecified) and the acceleration
expression itself, reading its coefficients from a lookup. -/
structure Variant where
  sigParams : List String
  accel : (String → Option ℚ) → ℚ → ℚ → ℚ

/-- The base `RollDecay` model of `estimator.py` lines 18-22: solving
`phi = -phi''/omega0^2 - 2*zeta/omega0*phi'` for `phi''` gives
`phi'' = -omega0^2*phi - 2*zeta*omega0*phi'`; the lambdified function's
parameters are the free symbols `phi, phi1d, omega0, zeta`. -/
def rollDecayVariant : Variant where
  sigParams := ["phi", "phi1d", "omega0", "zeta"]
  accel := fun look phi phi1d =>
    let omega0 := (look "omega0").getD 0;
    let zeta := (look "zeta").getD 0;
    -(omega0 ^ 2) * phi - 2 * zeta * omega0 * phi1d

/-- `EstimatorCubic`. Coefficient names are those of
`EstimatorCubic.simulate` in `direct_estimator_cubic.py` (also confirmed by
`calculate_additional_parameters`, which recovers `B_1` from `B_1A` by
dropping the trailing character). The acceleration expression is
Modelled from the spec: `equations.py` / `symbols.py` are not under `src/`;
spec section 4.1 gives the cubic damping law `B_1*p + B_2*p*|p| + B_3*p^3`
and restoring law `C_1*x + C_3*x^3 + C_5*x^5`, normalized by `A_44`. -/
def cubicVariant : Variant where
  sigParams := ["phi", "phi1d", "B_1A", "B_2A", "B_3A", "C_1A", "C_3A", "C_5A"]
  accel := fun look phi phi1d =>
    let b1 := (look "B_1A").getD 0;
    let b2 := (look "B_2A").getD 0;
    let b3 := (look "B_3A").getD 0;
    let c1 := (look "C_1A").getD 0;
    let c3 := (look "C_3A").getD 0;
    let c5 := (look "C_5A").getD 0;
    -(b1 * phi1d + b2 * phi1d * |phi1d| + b3 * phi1d ^ 3
      + c1 * phi + c3 * phi ^ 3 + c5 * phi ^ 5)

/-- `EstimatorQuadraticB`: coefficient names from its `simulate`; expression
Modelled from the spec (quadratic damping, linear restoring). -/
def quadraticBVariant : Variant where
  sigParams := ["phi", "phi1d", "B_1", "B_2", "C_1"]
  accel := fun look phi phi1d =>
    let b1 := (look "B_1").getD 0;
    let b2 := (look "B_2").getD 0;
    let c1 := (look "C_1").getD 0;
    -(b1 * phi1d + b2 * phi1d * |phi1d| + c1 * phi)

/-- `EstimatorQuadraticBandC`: coefficient names from its `simulate`;
expression Modelled from the spec (quadratic damping, cubic restoring). -/
def quadraticBandCVariant : Variant where
  sigParams := ["phi", "phi1d", "B_1", "B_2", "C_1", "C_3"]
  accel := fun look phi phi1d =>
    let b1 := (look "B_1").getD 0;
    let b2 := (look "B_2").getD 0;
    let c1 := (look "C_1").getD 0;
    let c3 := (look "C_3").getD 0;
    -(b1 * phi1d + b2 * phi1d * |phi1d| + c1 * phi + c3 * phi ^ 3)

/-- `EstimatorLinear`: coefficient names from its `simulate`; expression
Modelled from the spec (linear damping, linear restoring). -/
def linearVariant : Variant where
  sigParams := ["phi", "phi1d", "B_1", "C_1"]
  accel := fun look phi phi1d =>
    let b1 := (look "B_1").getD 0;
    let c1 := (look "C_1").getD 0;
    -(b1 * phi1d + c1 * phi)

/-- The coefficient names the acceleration function expects beyond the two
state variables: its signature minus `phi` and `phi1d`. -/
def expectedCoefficients (v : Variant) : List String :=
  v.sigParams.filter (fun k => ¬ (k == "phi" || k == "phi1d"))

/-- Whether a parameter dict binds exactly the coefficient names the
acceleration function expects (python accepts the keyword call
`calculate_acceleration(phi1d=..., phi=..., **parameters)` iff no keyword is
unknown and none is missing). -/
def validParameterKeys (v : Variant) (parameters : List (String × ℚ)) : Bool :=
  parameters.all (fun p => (expectedCoefficients v).contains p.1)
    && (expectedCoefficients v).all (fun k => (dictKeys parameters).contains k)

/-- The call `self.calculate_acceleration(phi1d=p_old, phi=phi_old,
**parameters)`: a `TypeError` (here `SimError.configError`) when the keyword
set does not match the signature, the closed-form acceleration otherwise. -/
def calculate_acceleration (v : Variant) (parameters : List (String × ℚ))
    (phi phi1d : ℚ) : Except SimError ℚ :=
  if validParameterKeys v parameters then
    .ok (v.accel (fun k => dictLookup k parameters) phi phi1d)
  else
    .error .configError

/-- `RollDecay.roll_decay_time_step` (estimator.py lines 168-181): the state
derivative `[phi1d, phi2d]` of the state `[phi, phi1d]`. -/
def roll_decay_time_step (v : Variant) (parameters : List (String × ℚ))
    (_t : ℚ) (states : ℚ × ℚ) : Except SimError (ℚ × ℚ) := do
  let phi2d ← calculate_acceleration v parameters states.1 states.2
  return (states.2, phi2d)

/-- Grid-stepping stage of the ODE solution: states at every evaluation
point, the next state obtained from the previous one and the derivative
(an explicit step scheme standing for the adaptive solution values of
`scipy.integrate.solve_ivp`; no claim depends on the values after the
initial point). -/
def eulerStates (f : ℚ → ℚ × ℚ → Except SimError (ℚ × ℚ)) (y : ℚ × ℚ) :
    List ℚ → Except SimError (List (ℚ × ℚ))
  | [] => .ok []
  | [_] => .ok [y]
  | t0 :: t1 :: rest => do
    let d ← f t0 y
    let y1 := (y.1 + (t1 - t0) * d.1, y.2 + (t1 - t0) * d.2)
    let tail ← eulerStates f y1 (t1 :: rest)
    return y :: tail

/-- `scipy.integrate.solve_ivp(fun, t_span, y0, t_eval, args)` as used by
`RollDecay._simulate`, by its documented interface: the right-hand side is
evaluated once at `(t0, y0)` during solver construction (initial step-size
selection) before any integration step, so an error it raises surfaces
before integration begins; a zero-length span (single evaluation point)
yields the initial state and cannot fail to converge; otherwise the external
adaptive integration either converges (`solverOk = true`), yielding the
solution sampled at the evaluation points with `y(t0) = y0`, or does not
(`solverOk = false`), which `_simulate` sees as `success = False`. -/
def solve_ivp (f : ℚ → ℚ × ℚ → Except SimError (ℚ × ℚ)) (y0 : ℚ × ℚ)
    (tEval : List ℚ) (solverOk : Bool) : Except SimError (List (ℚ × ℚ)) :=
  match tEval with
  | [] => .error .indexError
  | t0 :: rest => do
    let _ ← f t0 y0
    if rest.isEmpty then return [y0]
    else if solverOk then eulerStates f y0 (t0 :: rest)
    else throw .simulationFailed

/-- `RollDecay._simulate` (estimator.py lines 147-166): shift the grid so
integration starts at zero, integrate, raise `ValueError('Simulation
failed')` when the solver reports no success, and re-index the resulting
`phi`, `phi1d` columns by the caller's original time values. -/
def _simulate (v : Variant) (t : List ℚ) (phi0 phi1d0 : ℚ)
    (parameters : List (String × ℚ)) (solverOk : Bool) :
    Except SimError (List (ℚ × ℚ × ℚ)) :=
  match t with
  | [] => .error .indexError
  | t0 :: _ => do
    let tShifted := t.map (fun x => x - t0)
    let ys ← solve_ivp (roll_decay_time_step v parameters) (phi0, phi1d0)
      tShifted solverOk
    return (t.zip ys).map (fun p => (p.1, p.2.1, p.2.2))

/-- `RollDecay.estimator_integration` (estimator.py lines 100-110): simulate
the trial; a bare `except:` absorbs every failure and substitutes a frame of
`np.inf` at every sample time; the returned residual basis is the `phi`
column (`y_key = 'phi'` in integration mode). -/
def estimator_integration (v : Variant) (t : List ℚ) (phi0 phi1d0 : ℚ)
    (parameters : List (String × ℚ)) (solverOk : Bool) : List PyFloat :=
  match _simulate v t phi0 phi1d0 parameters solverOk with
  | .ok rows => rows.map (fun r => .ofRat r.2.1)
  | .error _ => t.map (fun _ => .inf)

/-- `RollDecay.parameter_names` (estimator.py lines 60-68): the acceleration
signature minus the state keys `phi`, `phi1d`, minus `omega0` when
`omega_regression` is off. The python `list(set(...))` order is unspecified;
the embedding keeps signature order (only the name set matters). -/
def parameter_names (v : Variant) (omega_regression : Bool) : List String :=
  let remove := if omega_regression then ["phi", "phi1d"]
    else ["phi", "phi1d", "omega0"]
  (v.sigParams.filter (fun k => !(remove.contains k))).dedup

/-- `RollDecay.bounds` (estimator.py lines 235-248): per fitted coefficient,
the caller-supplied pair from `self.boundaries`, defaulting to
`(-np.inf, np.inf)`; returned as the (minimums, maximums) list pair handed
to `least_squares`. -/
def bounds (names : List String)
    (boundaries : List (String × (PyFloat × PyFloat))) :
    List PyFloat × List PyFloat :=
  (names.map (fun k => ((dictLookup k boundaries).getD (.negInf, .inf)).1),
   names.map (fun k => ((dictLookup k boundaries).getD (.negInf, .inf)).2))

/-- `RollDecay.initial_guess` (estimator.py lines 250-256): per fitted
coefficient, the caller-supplied guess from `self.p0`, defaulting to `0.5`. -/
def initial_guess (names : List String) (p0 : List (String × ℚ)) : List ℚ :=
  names.map (fun k => (dictLookup k p0).getD (1 / 2))

/-- `EstimatorCubic.__init__` (direct_estimator_cubic.py lines 60-68): the
default boundary dict `{'B_1_A': (0, np.inf)}` updated with the
caller-supplied bounds (caller entries take precedence). Inherited unchanged
by `EstimatorQuadraticB`, `EstimatorQuadraticBandC` and `EstimatorLinear`. -/
def estimatorCubicBoundaries
    (callerBounds : List (String × (PyFloat × PyFloat))) :
    List (String × (PyFloat × PyFloat)) :=
  dictUpdate [("B_1_A", (.ofRat 0, .inf))] callerBounds

/-- The outcome `least_squares` hands back: the best parameter vector found
and the success flag (`self.result` in `RollDecay.fit`). -/
structure OptResult where
  x : List ℚ
  success : Bool
deriving DecidableEq, Repr

/-- Errors a `fit` call can raise: the `assert self.result['success']`
failure (python `AssertionError`). -/
inductive FitError where
  | assertionError
deriving DecidableEq, Repr

/-- Errors a `predict` call can raise. `attributeError` is the python
`AttributeError` on reading `self.parameters` when no fit ever completed. -/
inductive PredictError where
  | notFittedError
  | attributeError
  | indexError
  | simError (e : SimError)
deriving DecidableEq, Repr

/-- An observed series (`X`): rows `(time, phi, phi1d)`. -/
abbrev Series := List (ℚ × ℚ × ℚ)

/-- The mutable state of a `RollDecay` estimator that the claims touch.
`omega0_fixed` stands for the value of the `omega0` property (the spectral
estimate recomputed from `self.X`, a fixed input during a fit); its numeric
pipeline is embedded separately over the reals below. -/
structure RollDecayState where
  variant : Variant
  boundaries : List (String × (PyFloat × PyFloat))
  p0 : List (String × ℚ)
  omega_regression : Bool
  assert_success : Bool
  omega0_fixed : ℚ
  is_fitted : Bool
  parameters : Option (List (String × ℚ))
  result : Option OptResult

/-- `RollDecay.__init__` (estimator.py lines 24-37): fresh estimator, not
fitted, no stored parameters or result, strict-success assertion on. -/
def initRollDecay (v : Variant) (boundaries : List (String × (PyFloat × PyFloat)))
    (p0 : List (String × ℚ)) (omega_regression : Bool) (omega0_fixed : ℚ) :
    RollDecayState where
  variant := v
  boundaries := boundaries
  p0 := p0
  omega_regression := omega_regression
  assert_success := true
  omega0_fixed := omega0_fixed
  is_fitted := false
  parameters := none
  result := none

/-- The trial parameter dict built at the top of `RollDecay.estimator`
(estimator.py lines 76-80): zip the coefficient names with the trial vector,
then, when `omega_regression` is off, assign the fixed `omega0`. -/
def trialParameters (st : RollDecayState) (x : List ℚ) : List (String × ℚ) :=
  let ps := (parameter_names st.variant st.omega_regression).zip x
  if st.omega_regression then ps else dictInsert "omega0" st.omega0_fixed ps

/-- The `fit_method = 'integration'` branch of `RollDecay.estimator`
(estimator.py lines 86-92): `t` is the series index, `phi0` the first
observed roll angle, and the initial roll rate is the hard-coded `0.0`
(line 90; the observed `phi1d` read on line 89 is commented out). `none`
models the `IndexError` of `.iloc[0]` on an empty series. -/
def estimator_integration_mode (st : RollDecayState) (x : List ℚ)
    (xs : Series) (solverOk : Bool) : Option (List PyFloat) :=
  match xs with
  | [] => none
  | r :: _ =>
    some (estimator_integration st.variant (xs.map Prod.fst) r.2.1 0
      (trialParameters st x) solverOk)

/-- `RollDecay.fit` (estimator.py lines 112-129) after the external
`least_squares` call returned `opt`: store the result, run the
strict-success assertion, then store the fitted parameter dict (zip of the
coefficient names with `opt.x`, plus the fixed `omega0` when
`omega_regression` is off) and set the fitted flag. The second component is
the exception the call raises, if any; python state mutations made before
the raise persist on the object. -/
def fit (st : RollDecayState) (opt : OptResult) :
    RollDecayState × Option FitError :=
  let st1 := { st with result := some opt }
  if st1.assert_success && !opt.success then (st1, some .assertionError)
  else
    let names := parameter_names st1.variant st1.omega_regression
    let ps := names.zip opt.x
    let ps := if st1.omega_regression then ps
      else dictInsert "omega0" st1.omega0_fixed ps
    ({ st1 with parameters := some ps, is_fitted := true }, none)

/-- `sklearn.utils.validation.check_is_fitted(self, 'is_fitted_')` as called
by `RollDecay.predict`: it passes iff the attribute `is_fitted_` exists on
the object (`hasattr`), never inspecting its value; `RollDecay.__init__`
sets `self.is_fitted_ = False`, so the attribute always exists and the check
always passes. -/
def check_is_fitted (_st : RollDecayState) : Bool := true

/-- `RollDecay.predict` (estimator.py lines 183-190): the not-fitted check,
then a read of `self.parameters` (an `AttributeError` when no fit ever
stored them), then re-simulation from the first observed state. -/
def predict (st : RollDecayState) (X : Series) (solverOk : Bool) :
    Except PredictError Series :=
  if check_is_fitted st = false then .error .notFittedError
  else
    match st.parameters with
    | none => .error .attributeError
    | some ps =>
      match X with
      | [] => .error .indexError
      | r :: _ =>
        (_simulate st.variant (X.map Prod.fst) r.2.1 r.2.2 ps solverOk).mapError
          .simError

/-- `numpy.diff` of the series index: consecutive time differences. -/
def npDiff (times : List ℚ) : List ℚ :=
  (times.zip times.tail).map (fun p => p.2 - p.1)

/-- The mean time step `dt = np.mean(np.diff(time))` of `RollDecay.fft`
(estimator.py line 298). -/
def meanDt (times : List ℚ) : ℚ :=
  (npDiff times).sum / ((npDiff times).length : ℚ)

/-- `numpy.fft.rfftfreq(n)`: the nondimensional frequencies
`0, 1/n, ..., floor(n/2)/n`. -/
def rfftfreq (n : ℕ) : List ℚ :=
  (List.range (n / 2 + 1)).map (fun k => (k : ℚ) / (n : ℚ))

/-- Bin `k` of `numpy.fft.rfft(signal)`: the discrete Fourier transform
`X_k = sum_n x_n * exp(-2*pi*i*k*n/N)` of the real signal. -/
noncomputable def dftBin (signal : List ℚ) (k : ℕ) : ℂ :=
  ∑ n ∈ Finset.range signal.length,
    ((signal.getD n 0 : ℚ) : ℂ) *
      Complex.exp (Complex.ofReal
        (-(2 * Real.pi * (k : ℝ) * (n : ℝ) / (signal.length : ℝ))) * Complex.I)

/-- `np.abs(np.fft.rfft(signal))` (estimator.py line 302): the magnitudes of
the real-valued DFT bins `0 .. floor(N/2)`. -/
noncomputable def rfftAbs (signal : List ℚ) : List ℝ :=
  (List.range (signal.length / 2 + 1)).map (fun k => Complex.abs (dftBin signal k))

/-- `RollDecay.fft` (estimator.py lines 279-304): the raw signal values (no
de-trending is applied), sampling frequency `fs = 1/dt` from the mean time
step, dimensional frequencies `rfftfreq * fs`, and the DFT magnitudes. -/
noncomputable def fft (times signal : List ℚ) : List ℚ × List ℝ :=
  ((rfftfreq signal.length).map (fun f => f * (1 / meanDt times)),
   rfftAbs signal)

/-- `numpy.argmax`: index of the first occurrence of the maximum value,
accumulator form. -/
noncomputable def npArgmaxGo (l : List ℝ) (bestIdx : ℕ) (bestVal : ℝ) (i : ℕ) : ℕ :=
  match l with
  | [] => bestIdx
  | a :: rest =>
    if bestVal < a then npArgmaxGo rest i a (i + 1)
    else npArgmaxGo rest bestIdx bestVal (i + 1)

/-- `numpy.argmax`: index of the first occurrence of the maximum value
(`0` on an empty array stands for numpy's error there, never reached). -/
noncomputable def npArgmax : List ℝ → ℕ
  | [] => 0
  | a :: rest => npArgmaxGo rest 0 a 1

/-- `RollDecay.fft_omega0` (estimator.py lines 271-277): the frequency of the
bin with the largest magnitude — the `argmax` runs over the whole magnitude
array, the zero-frequency (DC) bin included — converted to angular frequency
by the factor `2*pi`. -/
noncomputable def fft_omega0 (frequencies : List ℚ) (dft : List ℝ) : ℝ :=
  2 * Real.pi * ((frequencies.getD (npArgmax dft) 0 : ℚ) : ℝ)

/-- The `RollDecay.omega0` property (estimator.py lines 258-269): the
spectral estimate `fft_omega0(*fft(X['phi']))` of the natural frequency. -/
noncomputable def omega0 (times signal : List ℚ) : ℝ :=
  fft_omega0 (fft times signal).1 (fft times signal).2

/-- Modelled from the spec: the natural-frequency estimate as the spec
states it, "the dominant frequency bin (excluding zero)" — the `argmax`
taken over the magnitudes with the DC bin dropped — converted to angular
frequency by `2*pi`. Stated only for comparison with `fft_omega0`. -/
noncomputable def fft_omega0_excluding_dc (frequencies : List ℚ) (dft : List ℝ) : ℝ :=
  2 * Real.pi * ((frequencies.getD (npArgmax (dft.drop 1) + 1) 0 : ℚ) : ℝ)

/-- Errors of `EstimatorCubic.result_for_database`: the python `KeyError`
on a missing required metadata entry (for example `inputs['Volume']` with no
`Volume` supplied, or the closed-form functions' named inputs), and the
not-fitted failure when no fit has completed. -/
inductive DbError where
  | keyError
  | notFittedError
deriving DecidableEq, Repr

/-- Modelled from the spec: `functions['A44']` of `EstimatorCubic`
(`equations.py` is not under `src/`). Solving `C_1 = GM*g*m` together with
the normalization `C_1A = C_1/A_44` for the effective inertia gives
`A_44 = g*m*GM/C_1A`. -/
def A44_closed_form (g m GM C_1A : ℚ) : ℚ := g * m * GM / C_1A

/-- Modelled from the spec: `functions['omega0']` of `EstimatorCubic`
(`equations.py` is not under `src/`). The linear natural-frequency relation
`omega0 = sqrt(C_1/A_44)` with `C_1 = GM*g*m`, evaluated on the inputs
(which by then include `A_44`). -/
noncomputable def omega0_closed_form (g m GM A44 : ℚ) : ℝ :=
  Real.sqrt (((g * m * GM / A44 : ℚ) : ℝ))

/-- `EstimatorCubic.calculate_additional_parameters` (direct_estimator_cubic.py
lines 90-110): for every fitted coefficient whose name drops its final
character to a name with a normalization equation (`B_1 = B_1A*A_44` etc.,
the normalized-name table Modelled from the spec), the denormalized value. -/
def calculate_additional_parameters (ps : List (String × ℚ)) (A44 : ℚ) :
    List (String × ℚ) :=
  ps.filterMap (fun p =>
    let base := p.1.dropRight 1
    if ["B_1", "B_2", "B_3", "C_1", "C_3", "C_5"].contains base then
      some (base, p.2 * A44)
    else none)

/-- `EstimatorCubic.result_for_database` (direct_estimator_cubic.py lines
113-136). The `super().result_for_database(meta_data)` base mapping is
Modelled from the spec (`DirectEstimator` is not under `src/`): the fitted
parameter mapping. Then: default `g = 9.81` and `rho = 1000` when absent,
`m = Volume*rho` (a `KeyError` when `Volume` is absent — no default),
`inputs = parameters.combine_first(inputs)` (fitted parameters take
precedence), `A_44` from the effective-inertia closed form (its named
inputs `C_1A`, `g`, `m`, `GM` must resolve, else `KeyError`), the
denormalized coefficients, and `omega0` from the natural-frequency closed
form. -/
noncomputable def result_for_database (st : RollDecayState)
    (meta_data : List (String × ℚ)) : Except DbError (List (String × ℝ)) :=
  match st.parameters with
  | none => .error .notFittedError
  | some ps =>
    let inputs := meta_data
    let inputs := if (dictLookup "g" inputs).isSome then inputs
      else dictInsert "g" (981 / 100) inputs
    let inputs := if (dictLookup "rho" inputs).isSome then inputs
      else dictInsert "rho" 1000 inputs
    match dictLookup "Volume" inputs with
    | none => .error .keyError
    | some vol =>
      let inputs := dictInsert "m" (vol * ((dictLookup "rho" inputs).getD 0)) inputs
      let inputs := dictUpdate inputs ps
      match dictLookup "C_1A" inputs, dictLookup "g" inputs,
          dictLookup "m" inputs, dictLookup "GM" inputs with
      | some c1a, some g, some m, some gm => do
        let a44 := A44_closed_form g m gm c1a
        let s : List (String × ℝ) := ps.map (fun p => (p.1, (p.2 : ℝ)))
        let s := dictInsert "A_44" ((a44 : ℚ) : ℝ) s
        let s := dictUpdate s
          ((calculate_additional_parameters ps a44).map (fun p => (p.1, (p.2 : ℝ))))
        let s := dictInsert "omega0" (omega0_closed_form g m gm a44) s
        return s
      | _, _, _, _ => .error .keyError

/- ————————————————————————————————————————————————————————————————
   Helper lemmas
   ———————————————————————————————————————————————————————————————— -/

theorem zip_map_snd_take (l₁ : List α) (l₂ : List β) :
    (l₁.zip l₂).map Prod.snd = l₂.take l₁.length := by
  induction l₁ generalizing l₂ with
  | nil => simp
  | cons a l ih =>
    cases l₂ with
    | nil => simp
    | cons b l' => simp [ih]

theorem dictKeys_zip (l₁ : List String) (l₂ : List ℚ)
    (h : l₂.length = l₁.length) :
    dictKeys (l₁.zip l₂) = l₁ := by
  simpa [dictKeys] using List.map_fst_zip l₁ l₂ (le_of_eq h.symm)

theorem dictInsert_of_not_mem {α : Type} (k : String) (v : α)
    (d : List (String × α)) (h : ¬ k ∈ dictKeys d) :
    dictInsert k v d = d ++ [(k, v)] := by
  have : d.any (fun p => p.1 == k) = false := by
    simp only [List.any_eq_false]
    intro p hp
    simp only [beq_iff_eq]
    intro hk
    exact h (hk ▸ List.mem_map_of_mem Prod.fst hp)
  simp [dictInsert, this]

theorem omega0_not_mem_parameter_names (v : Variant) :
    ¬ "omega0" ∈ parameter_names v false := by
  intro h
  simp only [parameter_names, List.mem_dedup, List.mem_filter,
    Bool.not_eq_true'] at h
  exact absurd h.2 (by decide)

/- ————————————————————————————————————————————————————————————————
   C7 — one-point time grid
   ———————————————————————————————————————————————————————————————— -/

/-- C7: for every initial condition `(phi0, phi1d0)` and every parameter set
recognized by the variant's acceleration function, calling the simulator
with a time grid containing exactly one point returns a one-row result equal
to the initial condition unchanged (`phi = phi0`, `phi1d = phi1d0` at that
time), without error — for any convergence behaviour of the external solver,
since a zero-length span takes no integration step. -/
theorem C7_one_point_grid_returns_initial_condition
    (v : Variant) (t0 phi0 phi1d0 : ℚ) (params : List (String × ℚ)) (ok : Bool)
    (hv : validParameterKeys v params = true) :
    _simulate v [t0] phi0 phi1d0 params ok = .ok [(t0, phi0, phi1d0)] := by
  simp [_simulate, solve_ivp, roll_decay_time_step, calculate_acceleration, hv]

/-- Witness for C7 at a concrete input: the base `RollDecay` variant with
its two coefficients bound. -/
theorem C7_witness :
    validParameterKeys rollDecayVariant [("omega0", 2), ("zeta", 7)] = true ∧
    _simulate rollDecayVariant [3] 1 2 [("omega0", 2), ("zeta", 7)] true
      = .ok [(3, 1, 2)] :=
  ⟨by decide, C7_one_point_grid_returns_initial_condition rollDecayVariant 3 1 2
    [("omega0", 2), ("zeta", 7)] true (by decide)⟩

/- ————————————————————————————————————————————————————————————————
   C8 — unrecognized parameter name
   ———————————————————————————————————————————————————————————————— -/

/-- C8: for every call to the simulator whose parameter set contains a name
the variant's acceleration function does not recognize, the configuration
error surfaces before integration begins: the result is the configuration
error for every nonempty time grid (including one-point grids, where no
integration step exists at all) and for every convergence behaviour of the
external solver, because the right-hand side is evaluated once during solver
construction, before stepping. -/
theorem C8_unknown_parameter_fails_before_integration
    (v : Variant) (t : List ℚ) (phi0 phi1d0 : ℚ)
    (params : List (String × ℚ)) (ok : Bool)
    (hne : t ≠ [])
    (hbad : ∃ p ∈ params, ¬ p.1 ∈ expectedCoefficients v) :
    _simulate v t phi0 phi1d0 params ok = .error .configError := by
  obtain ⟨p, hp, hnotin⟩ := hbad
  have hinvalid : validParameterKeys v params = false := by
    simp only [validParameterKeys, Bool.and_eq_false_iff, List.all_eq_false]
    exact Or.inl ⟨p, hp, by simpa using hnotin⟩
  cases t with
  | nil => exact absurd rfl hne
  | cons t0 ts =>
    simp [_simulate, solve_ivp, roll_decay_time_step, calculate_acceleration,
      hinvalid, Bind.bind, Except.bind]

/-- Witness for C8 at a concrete input: a parameter dict holding the
unknown name `bad`, on a two-point grid with a non-converging solver flag
(the configuration error still wins). -/
theorem C8_witness :
    _simulate rollDecayVariant [0, 1] 1 0 [("omega0", 2), ("bad", 1)] false
      = .error .configError :=
  C8_unknown_parameter_fails_before_integration rollDecayVariant [0, 1] 1 0
    [("omega0", 2), ("bad", 1)] false (by decide)
    ⟨("bad", 1), by decide, by decide⟩

/- ————————————————————————————————————————————————————————————————
   C1 — the bare `except:` in the integration residual
   ———————————————————————————————————————————————————————————————— -/

/-- C1 (counterexample to the claim as stated): the handler in
`estimator_integration` is a bare `except:`, so it absorbs errors that are
not simulation failures. At this concrete trial the parameter dict holds the
unknown name `bad`; the simulation raises the configuration `TypeError` —
a different error from the simulation failure — and `estimator_integration`
still absorbs it into an infinite residual series instead of propagating,
refuting "only simulation failure (not arbitrary errors) is caught". -/
theorem C1_counterexample_config_error_also_caught :
    _simulate rollDecayVariant [0, 1] 1 0 [("omega0", 2), ("bad", 1)] true
      = .error .configError
    ∧ SimError.configError ≠ SimError.simulationFailed
    ∧ estimator_integration rollDecayVariant [0, 1] 1 0
        [("omega0", 2), ("bad", 1)] true = [.inf, .inf] := by
  refine ⟨by decide, by decide, by decide⟩

/-- C1 (amended): inside the `integration` residual mode, if computing the
trial's trajectory fails for any reason — simulation failure or any other
error, such as an unrecognized parameter name — the failure is absorbed
rather than raised (the handler is a bare `except:`) and the residual basis
for that trial is a series of infinite values at every sample time, so the
outer least-squares fit continues; when the simulation succeeds, the
predicted `phi` series is returned. -/
theorem C1_any_failure_becomes_infinite_residual
    (v : Variant) (t : List ℚ) (phi0 phi1d0 : ℚ)
    (params : List (String × ℚ)) (ok : Bool) :
    ((∃ e, _simulate v t phi0 phi1d0 params ok = .error e) →
      estimator_integration v t phi0 phi1d0 params ok
        = t.map (fun _ => .inf))
    ∧ (∀ rows, _simulate v t phi0 phi1d0 params ok = .ok rows →
      estimator_integration v t phi0 phi1d0 params ok
        = rows.map (fun r => .ofRat r.2.1)) := by
  constructor
  · rintro ⟨e, he⟩
    simp [estimator_integration, he]
  · intro rows hrows
    simp [estimator_integration, hrows]

/-- Witness for C1 at a concrete input: a trial whose simulation raises the
configuration error is absorbed into the infinite residual series. -/
theorem C1_witness :
    estimator_integration rollDecayVariant [0, 1] 1 0
      [("omega0", 2), ("bad", 1)] false = [.inf, .inf] :=
  (C1_any_failure_becomes_infinite_residual rollDecayVariant [0, 1] 1 0
    [("omega0", 2), ("bad", 1)] false).1 ⟨.configError, by decide⟩

/- ————————————————————————————————————————————————————————————————
   C4 — the integration residual discards the observed initial roll rate
   ———————————————————————————————————————————————————————————————— -/

/-- C4: for every observed series, the `integration` residual mode
re-simulates each trial from the series' first observed roll angle with the
initial roll rate hard-coded to zero (estimator.py line 90), regardless of
the observed `phi1d` column: (1) the residual basis equals
`estimator_integration` called with initial rate `0`, and (2) the output is
unchanged under replacing the series by any series with the same time index
and the same first observed roll angle — in particular under arbitrary
changes to the observed roll-rate column. -/
theorem C4_integration_mode_zeroes_initial_rate
    (st : RollDecayState) (x : List ℚ) (xs ys : Series) (ok : Bool) :
    (∀ r rest, xs = r :: rest →
      estimator_integration_mode st x xs ok
        = some (estimator_integration st.variant (xs.map Prod.fst) r.2.1 0
            (trialParameters st x) ok))
    ∧ (xs.map Prod.fst = ys.map Prod.fst →
      xs.head?.map (fun r => r.2.1) = ys.head?.map (fun r => r.2.1) →
      estimator_integration_mode st x xs ok
        = estimator_integration_mode st x ys ok) := by
  constructor
  · rintro r rest rfl
    rfl
  · intro htimes hhead
    cases xs with
    | nil =>
      cases ys with
      | nil => rfl
      | cons s ss => simp at hhead
    | cons r rs =>
      cases ys with
      | nil => simp at hhead
      | cons s ss =>
        simp only [List.head?_cons, Option.map_some'] at hhead
        have : r.2.1 = s.2.1 := Option.some_injective _ hhead
        simp only [estimator_integration_mode, htimes, this]

/-- Witness for C4 at a concrete input: a one-row series whose observed
initial roll rate is `9`, yet the trial is re-simulated from rate `0`. -/
theorem C4_witness :
    estimator_integration_mode (initRollDecay rollDecayVariant [] [] false 3)
      [5] [(3, 1, 9)] true
      = some (estimator_integration rollDecayVariant [3] 1 0
          (trialParameters (initRollDecay rollDecayVariant [] [] false 3) [5])
          true) :=
  (C4_integration_mode_zeroes_initial_rate
    (initRollDecay rollDecayVariant [] [] false 3) [5] [(3, 1, 9)] [] true).1
    (3, 1, 9) [] rfl

theorem omega0_not_mem_zip_keys (v : Variant) (x : List ℚ) :
    ¬ "omega0" ∈ dictKeys ((parameter_names v false).zip x) := by
  intro h
  simp only [dictKeys, List.mem_map] at h
  obtain ⟨p, hp, hfst⟩ := h
  exact omega0_not_mem_parameter_names v (hfst ▸ (List.of_mem_zip hp).1)

/- ————————————————————————————————————————————————————————————————
   C5 — the strict-success assertion in `fit`
   ———————————————————————————————————————————————————————————————— -/

/-- C5: for every fit whose optimizer does not reach its success criterion
(`opt.success = false`): with the strict-success assertion enabled — the
constructor default — the fit raises (the python `assert` fails); with it
disabled by the caller, the fit returns without raising, stores the
best-so-far parameter values handed back by the optimizer (plus the fixed
`omega0` when frequency is not a free parameter), sets the fitted flag, and
keeps the optimizer result with its `success = False` flag as the non-final
marker. -/
theorem C5_fit_convergence_assertion
    (st : RollDecayState) (opt : OptResult) (h : opt.success = false) :
    (st.assert_success = true →
      fit st opt = ({ st with result := some opt }, some .assertionError))
    ∧ (st.assert_success = false →
      (fit st opt).2 = none ∧ (fit st opt).1.is_fitted = true ∧
      (fit st opt).1.result = some opt ∧
      ∃ ps, (fit st opt).1.parameters = some ps ∧
        ps.map Prod.snd
          = opt.x.take (parameter_names st.variant st.omega_regression).length
            ++ (if st.omega_regression then [] else [st.omega0_fixed]))
    ∧ (∀ v b p w f, (initRollDecay v b p w f).assert_success = true) := by
  refine ⟨?_, ?_, fun _ _ _ _ _ => rfl⟩
  · intro ha
    simp [fit, ha, h]
  · intro ha
    by_cases hw : st.omega_regression
    · refine ⟨by simp [fit, ha, hw], by simp [fit, ha, hw], by simp [fit, ha, hw],
        (parameter_names st.variant st.omega_regression).zip opt.x,
        by simp [fit, ha, hw], ?_⟩
      simp [hw, zip_map_snd_take]
    · have hins := dictInsert_of_not_mem "omega0" st.omega0_fixed
        ((parameter_names st.variant false).zip opt.x)
        (omega0_not_mem_zip_keys st.variant opt.x)
      refine ⟨by simp [fit, ha, hw], by simp [fit, ha, hw], by simp [fit, ha, hw],
        dictInsert "omega0" st.omega0_fixed
          ((parameter_names st.variant false).zip opt.x),
        by simp [fit, ha, hw], ?_⟩
      rw [hins]
      simp only [Bool.not_eq_true] at hw
      simp [hw, zip_map_snd_take]

/-- Witness for C5 at a concrete input: a non-successful optimizer outcome
against a fresh estimator (assertion enabled, so the fit raises). -/
theorem C5_witness :
    fit (initRollDecay rollDecayVariant [] [] true 0) ⟨[2, 3], false⟩
      = ({ initRollDecay rollDecayVariant [] [] true 0 with
            result := some ⟨[2, 3], false⟩ }, some .assertionError) :=
  (C5_fit_convergence_assertion (initRollDecay rollDecayVariant [] [] true 0)
    ⟨[2, 3], false⟩ rfl).1 rfl

theorem mem_parameter_names_iff (v : Variant) (w : Bool) (a : String) :
    a ∈ parameter_names v w ↔
      a ∈ v.sigParams ∧
        ¬ a ∈ (if w then ["phi", "phi1d"] else ["phi", "phi1d", "omega0"]) := by
  simp only [parameter_names, List.mem_dedup, List.mem_filter,
    Bool.not_eq_true', ← Bool.not_eq_true]
  constructor
  · rintro ⟨hs, hc⟩
    refine ⟨hs, fun hmem => ?_⟩
    rw [Bool.not_eq_true] at hc
    cases w <;> simp_all [List.contains, List.elem_iff]
  · rintro ⟨hs, hc⟩
    refine ⟨hs, ?_⟩
    cases w <;> simp_all [List.contains, List.elem_iff]

/- ————————————————————————————————————————————————————————————————
   C9 — the stored Parameter Set holds exactly the declared names
   ———————————————————————————————————————————————————————————————— -/

/-- C9: after every fit call that completes without raising, the stored
Parameter Set binds exactly the coefficient names the variant declares: the
acceleration function's parameters minus the state variables `phi` and
`phi1d` (as a set — no extra names, no missing names). When the
configuration fixes the natural frequency instead of fitting it, `omega0`
is removed from the fitted names but re-inserted with the fixed value, so
the stored name set is the same; the length hypothesis is the
`least_squares` contract that the returned vector has the length of the
initial guess, and the `omega0`-membership hypothesis covers every variant
the library constructs (the base model's signature holds `omega0`, and the
`EstimatorCubic` family hard-codes `omega_regression=True`). -/
theorem C9_fitted_parameter_names_exact
    (st : RollDecayState) (opt : OptResult)
    (hlen : opt.x.length
      = (parameter_names st.variant st.omega_regression).length)
    (hdone : (fit st opt).2 = none)
    (homega : st.omega_regression = true ∨ "omega0" ∈ st.variant.sigParams) :
    ∃ ps, (fit st opt).1.parameters = some ps ∧
      (dictKeys ps).toFinset
        = st.variant.sigParams.toFinset \ {"phi", "phi1d"} := by
  have hbranch : (st.assert_success && !opt.success) = false := by
    by_contra hc
    rw [Bool.not_eq_false] at hc
    simp [fit, hc] at hdone
  by_cases hw : st.omega_regression
  · refine ⟨(parameter_names st.variant st.omega_regression).zip opt.x,
      by simp [fit, hbranch, hw], ?_⟩
    rw [dictKeys_zip _ _ hlen]
    ext a
    simp only [List.mem_toFinset, mem_parameter_names_iff, hw, if_true,
      Finset.mem_sdiff, Finset.mem_insert, Finset.mem_singleton,
      List.mem_cons, List.not_mem_nil, or_false, not_or]
  · simp only [Bool.not_eq_true] at hw
    have hins := dictInsert_of_not_mem "omega0" st.omega0_fixed
      ((parameter_names st.variant false).zip opt.x)
      (omega0_not_mem_zip_keys st.variant opt.x)
    refine ⟨dictInsert "omega0" st.omega0_fixed
      ((parameter_names st.variant false).zip opt.x),
      by simp [fit, hbranch, hw], ?_⟩
    rw [hins]
    have hkeys : dictKeys ((parameter_names st.variant false).zip opt.x
        ++ [("omega0", st.omega0_fixed)])
        = parameter_names st.variant false ++ ["omega0"] := by
      have happ : dictKeys ((parameter_names st.variant false).zip opt.x
          ++ [("omega0", st.omega0_fixed)])
          = dictKeys ((parameter_names st.variant false).zip opt.x)
            ++ ["omega0"] := by
        simp [dictKeys]
      rw [happ, dictKeys_zip _ _ (hw ▸ hlen)]
    rw [hkeys]
    have homega' : "omega0" ∈ st.variant.sigParams := by
      rcases homega with h | h
      · rw [hw] at h; exact absurd h (by decide)
      · exact h
    ext a
    simp only [List.mem_toFinset, List.mem_append, mem_parameter_names_iff,
      if_false, Finset.mem_sdiff, Finset.mem_insert, Finset.mem_singleton,
      List.mem_cons, List.not_mem_nil, or_false, not_or]
    constructor
    · rintro (⟨hs, hmem⟩ | rfl)
      · exact ⟨hs, fun h => hmem (by simp [h]), fun h => hmem (by simp [h])⟩
      · exact ⟨homega', by decide, by decide⟩
    · rintro ⟨hs, h1, h2⟩
      by_cases ho : a = "omega0"
      · exact Or.inr ho
      · exact Or.inl ⟨hs, by simp [h1, h2, ho]⟩

/-- Witness for C9 at a concrete input: the base variant with the natural
frequency fixed (`omega_regression=False`); the stored names are exactly
`zeta` and `omega0`, i.e. the signature minus the state variables. -/
theorem C9_witness :
    ∃ ps, (fit { initRollDecay rollDecayVariant [] [] false 3 with
        assert_success := false } ⟨[7], true⟩).1.parameters = some ps ∧
      (dictKeys ps).toFinset
        = rollDecayVariant.sigParams.toFinset \ {"phi", "phi1d"} :=
  C9_fitted_parameter_names_exact
    { initRollDecay rollDecayVariant [] [] false 3 with assert_success := false }
    ⟨[7], true⟩ (by decide) (by decide) (Or.inr (by decide))

/- ————————————————————————————————————————————————————————————————
   C2 — the dead default bound key `B_1_A`
   ———————————————————————————————————————————————————————————————— -/

/-- C2 (evaluation at the failing input): `EstimatorCubic()` with no caller
overrides. The constructor's default boundary dict stores the non-negativity
bound under the key `B_1_A`, but the fitted coefficient names are
`B_1A, B_2A, B_3A, C_1A, C_3A, C_5A`, and `B_1_A` is not among them — so the
bounds actually handed to `least_squares` are `(-inf, inf)` for every
coefficient, the leading damping coefficient `B_1A` included, and the
intended `[0, inf)` bound is never applied. The defaults for the unbounded
coefficients and the `0.5` initial guesses are as claimed. -/
theorem C2_cubic_default_bound_key_never_matches :
    parameter_names cubicVariant true
      = ["B_1A", "B_2A", "B_3A", "C_1A", "C_3A", "C_5A"]
    ∧ ¬ "B_1_A" ∈ parameter_names cubicVariant true
    ∧ dictLookup "B_1_A" (estimatorCubicBoundaries [])
        = some (.ofRat 0, .inf)
    ∧ bounds (parameter_names cubicVariant true) (estimatorCubicBoundaries [])
        = (List.replicate 6 .negInf, List.replicate 6 .inf)
    ∧ initial_guess (parameter_names cubicVariant true) []
        = List.replicate 6 (1 / 2) := by
  refine ⟨by decide, by decide, by decide, by decide, rfl⟩

/- ————————————————————————————————————————————————————————————————
   C10 — state after a failed fit, and the subsequent predict
   ———————————————————————————————————————————————————————————————— -/

/-- C10 (evaluation at the failing input): a fresh estimator whose first fit
raises the strict-success assertion. The fitted flag stays `False` and no
parameter set is stored — those conjuncts of the claim hold — but the
subsequent `predict` call does not raise the not-fitted error: sklearn's
`check_is_fitted(self, 'is_fitted_')` only tests that the attribute exists,
and `__init__` created it, so the check passes and the call instead dies
with the `AttributeError` on the missing `self.parameters`. -/
theorem C10_predict_after_failed_fit :
    (fit (initRollDecay rollDecayVariant [] [] true 0) ⟨[2, 3], false⟩).2
      = some .assertionError
    ∧ (fit (initRollDecay rollDecayVariant [] [] true 0) ⟨[2, 3], false⟩).1.is_fitted
      = false
    ∧ (fit (initRollDecay rollDecayVariant [] [] true 0) ⟨[2, 3], false⟩).1.parameters
      = none
    ∧ check_is_fitted
        (fit (initRollDecay rollDecayVariant [] [] true 0) ⟨[2, 3], false⟩).1
      = true
    ∧ predict (fit (initRollDecay rollDecayVariant [] [] true 0) ⟨[2, 3], false⟩).1
        [(0, 1, 0), (1, 1, 0)] true
      = .error .attributeError
    ∧ PredictError.attributeError ≠ PredictError.notFittedError := by
  refine ⟨by decide, by decide, by decide, by decide, by decide, by decide⟩

/- ————————————————————————————————————————————————————————————————
   C6 — `result_for_database` defaults and positivity
   ———————————————————————————————————————————————————————————————— -/

/-- C6 (counterexample to the claim as stated), in three parts, one per
forced change. (1) `result_for_database` does not default an absent
displaced volume: with metadata supplying only `GM`, the density and
gravity defaults are written but the read `inputs['Volume']` raises a
`KeyError` — the call fails instead of defaulting the volume as the claim's
"defaults each absent metadata entry (displaced volume, ...)" requires.
(2) The metacentric height `GM` is a further required, never-defaulted
entry: with metadata supplying only `Volume`, running the effective-inertia
closed form raises the `KeyError` on its named input `GM`, so "returns a
mapping containing A_44 ..." does not hold for arbitrary ship metadata.
(3) Positivity is not unconditional over completed fits: a completed fit
whose linear restoring coefficient came out negative (`C_1A = -2` — no
bound prevents this, cf. C2) completes and returns a mapping whose `A_44`
is negative, refuting "with A_44 > 0". -/
theorem C6_counterexample_volume_not_defaulted :
    result_for_database
      { initRollDecay cubicVariant [] [] true 0 with
        parameters := some [("B_1A", 1), ("B_2A", 1), ("B_3A", 1),
          ("C_1A", 2), ("C_3A", 1), ("C_5A", 1)],
        is_fitted := true }
      [("GM", 1)] = .error .keyError
    ∧ result_for_database
        { initRollDecay cubicVariant [] [] true 0 with
          parameters := some [("B_1A", 1), ("B_2A", 1), ("B_3A", 1),
            ("C_1A", 2), ("C_3A", 1), ("C_5A", 1)],
          is_fitted := true }
        [("Volume", 100)] = .error .keyError
    ∧ ∃ s, result_for_database
          { initRollDecay cubicVariant [] [] true 0 with
            parameters := some [("B_1A", 1), ("B_2A", 1), ("B_3A", 1),
              ("C_1A", -2), ("C_3A", 1), ("C_5A", 1)],
            is_fitted := true }
          [("Volume", 100), ("GM", 1)] = .ok s
        ∧ dictLookup "A_44" s
            = some ((A44_closed_form (981 / 100) (100 * 1000) 1 (-2) : ℚ) : ℝ)
        ∧ A44_closed_form (981 / 100) (100 * 1000) 1 (-2) < 0 := by
  have h1 : ("B_1A" : String).dropRight 1 = "B_1" := rfl
  have h2 : ("B_2A" : String).dropRight 1 = "B_2" := rfl
  have h3 : ("B_3A" : String).dropRight 1 = "B_3" := rfl
  have h4 : ("C_1A" : String).dropRight 1 = "C_1" := rfl
  have h5 : ("C_3A" : String).dropRight 1 = "C_3" := rfl
  have h6 : ("C_5A" : String).dropRight 1 = "C_5" := rfl
  refine ⟨by decide, by decide,
    ⟨[("B_1A", ((1 : ℚ) : ℝ)), ("B_2A", ((1 : ℚ) : ℝ)), ("B_3A", ((1 : ℚ) : ℝ)),
      ("C_1A", ((-2 : ℚ) : ℝ)), ("C_3A", ((1 : ℚ) : ℝ)), ("C_5A", ((1 : ℚ) : ℝ)),
      ("A_44", ((A44_closed_form (981 / 100) (100 * 1000) 1 (-2) : ℚ) : ℝ)),
      ("B_1", ((1 : ℚ) : ℝ)
        * ((A44_closed_form (981 / 100) (100 * 1000) 1 (-2) : ℚ) : ℝ)),
      ("B_2", ((1 : ℚ) : ℝ)
        * ((A44_closed_form (981 / 100) (100 * 1000) 1 (-2) : ℚ) : ℝ)),
      ("B_3", ((1 : ℚ) : ℝ)
        * ((A44_closed_form (981 / 100) (100 * 1000) 1 (-2) : ℚ) : ℝ)),
      ("C_1", ((-2 : ℚ) : ℝ)
        * ((A44_closed_form (981 / 100) (100 * 1000) 1 (-2) : ℚ) : ℝ)),
      ("C_3", ((1 : ℚ) : ℝ)
        * ((A44_closed_form (981 / 100) (100 * 1000) 1 (-2) : ℚ) : ℝ)),
      ("C_5", ((1 : ℚ) : ℝ)
        * ((A44_closed_form (981 / 100) (100 * 1000) 1 (-2) : ℚ) : ℝ)),
      ("omega0", omega0_closed_form (981 / 100) (100 * 1000) 1
        (A44_closed_form (981 / 100) (100 * 1000) 1 (-2)))],
    ?_, ?_, ?_⟩⟩
  · simp [result_for_database, dictLookup, dictInsert, dictUpdate, dictKeys,
      calculate_additional_parameters, h1, h2, h3, h4, h5, h6, pure, Except.pure]
  · simp [dictLookup]
  · norm_num [A44_closed_form]

/-- C6 (amended): for every completed cubic fit and metadata supplying a
positive displaced volume and metacentric height (density and gravity
defaulted to `rho = 1000`, `g = 9.81`), provided the fitted linear restoring
coefficient `C_1A` is positive, `result_for_database` returns a mapping
containing `A_44` from the effective-inertia closed form
`g*m*GM/C_1A` with `m = Volume*rho`, and `omega0` from the
natural-frequency closed form, both strictly positive. -/
theorem C6_result_for_database_positive
    (b1 b2 b3 c1 c3 c5 V gm : ℚ)
    (hc1 : 0 < c1) (hV : 0 < V) (hgm : 0 < gm) :
    ∃ s, result_for_database
        { initRollDecay cubicVariant [] [] true 0 with
          parameters := some [("B_1A", b1), ("B_2A", b2), ("B_3A", b3),
            ("C_1A", c1), ("C_3A", c3), ("C_5A", c5)],
          is_fitted := true }
        [("Volume", V), ("GM", gm)] = .ok s
      ∧ dictLookup "A_44" s
          = some ((A44_closed_form (981 / 100) (V * 1000) gm c1 : ℚ) : ℝ)
      ∧ 0 < A44_closed_form (981 / 100) (V * 1000) gm c1
      ∧ dictLookup "omega0" s
          = some (omega0_closed_form (981 / 100) (V * 1000) gm
              (A44_closed_form (981 / 100) (V * 1000) gm c1))
      ∧ 0 < omega0_closed_form (981 / 100) (V * 1000) gm
          (A44_closed_form (981 / 100) (V * 1000) gm c1) := by
  have h1 : ("B_1A" : String).dropRight 1 = "B_1" := rfl
  have h2 : ("B_2A" : String).dropRight 1 = "B_2" := rfl
  have h3 : ("B_3A" : String).dropRight 1 = "B_3" := rfl
  have h4 : ("C_1A" : String).dropRight 1 = "C_1" := rfl
  have h5 : ("C_3A" : String).dropRight 1 = "C_3" := rfl
  have h6 : ("C_5A" : String).dropRight 1 = "C_5" := rfl
  have ha44 : 0 < A44_closed_form (981 / 100) (V * 1000) gm c1 := by
    unfold A44_closed_form
    apply div_pos _ hc1
    have hm : (0 : ℚ) < V * 1000 := by positivity
    have hg : (0 : ℚ) < 981 / 100 := by norm_num
    exact mul_pos (mul_pos hg hm) hgm
  refine ⟨[("B_1A", (b1 : ℝ)), ("B_2A", (b2 : ℝ)), ("B_3A", (b3 : ℝ)),
      ("C_1A", (c1 : ℝ)), ("C_3A", (c3 : ℝ)), ("C_5A", (c5 : ℝ)),
      ("A_44", ((A44_closed_form (981 / 100) (V * 1000) gm c1 : ℚ) : ℝ)),
      ("B_1", (b1 : ℝ) * ((A44_closed_form (981 / 100) (V * 1000) gm c1 : ℚ) : ℝ)),
      ("B_2", (b2 : ℝ) * ((A44_closed_form (981 / 100) (V * 1000) gm c1 : ℚ) : ℝ)),
      ("B_3", (b3 : ℝ) * ((A44_closed_form (981 / 100) (V * 1000) gm c1 : ℚ) : ℝ)),
      ("C_1", (c1 : ℝ) * ((A44_closed_form (981 / 100) (V * 1000) gm c1 : ℚ) : ℝ)),
      ("C_3", (c3 : ℝ) * ((A44_closed_form (981 / 100) (V * 1000) gm c1 : ℚ) : ℝ)),
      ("C_5", (c5 : ℝ) * ((A44_closed_form (981 / 100) (V * 1000) gm c1 : ℚ) : ℝ)),
      ("omega0", omega0_closed_form (981 / 100) (V * 1000) gm
        (A44_closed_form (981 / 100) (V * 1000) gm c1))],
    ?_, ?_, ha44, ?_, ?_⟩
  · simp [result_for_database, dictLookup, dictInsert, dictUpdate, dictKeys,
      calculate_additional_parameters, h1, h2, h3, h4, h5, h6, pure, Except.pure]
  · simp [dictLookup]
  · simp [dictLookup]
  · unfold omega0_closed_form
    apply Real.sqrt_pos.mpr
    have : (0 : ℚ) < 981 / 100 * (V * 1000) * gm
        / A44_closed_form (981 / 100) (V * 1000) gm c1 := by
      apply div_pos _ ha44
      have hm : (0 : ℚ) < V * 1000 := by positivity
      have hg : (0 : ℚ) < 981 / 100 := by norm_num
      exact mul_pos (mul_pos hg hm) hgm
    exact_mod_cast this

/-- Witness for C6 at a concrete input: a cubic fit with `C_1A = 2`,
`Volume = 100`, `GM = 1`. -/
theorem C6_witness :
    ∃ s, result_for_database
        { initRollDecay cubicVariant [] [] true 0 with
          parameters := some [("B_1A", 1), ("B_2A", 1), ("B_3A", 1),
            ("C_1A", 2), ("C_3A", 1), ("C_5A", 1)],
          is_fitted := true }
        [("Volume", 100), ("GM", 1)] = .ok s
      ∧ dictLookup "A_44" s
          = some ((A44_closed_form (981 / 100) (100 * 1000) 1 2 : ℚ) : ℝ)
      ∧ 0 < A44_closed_form (981 / 100) (100 * 1000) 1 2
      ∧ dictLookup "omega0" s
          = some (omega0_closed_form (981 / 100) (100 * 1000) 1
              (A44_closed_form (981 / 100) (100 * 1000) 1 2))
      ∧ 0 < omega0_closed_form (981 / 100) (100 * 1000) 1
          (A44_closed_form (981 / 100) (100 * 1000) 1 2) :=
  C6_result_for_database_positive 1 1 1 2 1 1 100 1 (by decide) (by decide)
    (by decide)

/- ————————————————————————————————————————————————————————————————
   C3 — the spectral natural-frequency estimate
   ———————————————————————————————————————————————————————————————— -/

theorem sum_range_getD (x : List ℚ) :
    ∑ n ∈ Finset.range x.length, x.getD n 0 = x.sum := by
  induction x with
  | nil => simp
  | cons a l ih =>
    rw [List.length_cons, Finset.sum_range_succ', List.sum_cons]
    simp only [List.getD_cons_succ, List.getD_cons_zero, ih]
    ring

theorem dftBin_zero (x : List ℚ) : dftBin x 0 = ((x.sum : ℚ) : ℂ) := by
  unfold dftBin
  have h : ∀ n ∈ Finset.range x.length,
      ((x.getD n 0 : ℚ) : ℂ) *
        Complex.exp (Complex.ofReal
          (-(2 * Real.pi * ((0 : ℕ) : ℝ) * (n : ℝ) / (x.length : ℝ))) * Complex.I)
        = ((x.getD n 0 : ℚ) : ℂ) := by
    intro n _
    norm_num
  rw [Finset.sum_congr rfl h]
  push_cast [← sum_range_getD x]
  rfl

theorem getD_nonneg (x : List ℚ) (hx : ∀ v ∈ x, 0 ≤ v) (n : ℕ) :
    0 ≤ x.getD n 0 := by
  by_cases h : n < x.length
  · rw [List.getD_eq_getElem x 0 h]
    exact hx _ (x.getElem_mem h)
  · rw [List.getD_eq_default x 0 (le_of_not_lt h)]

/-- Every DFT-bin magnitude of a componentwise-nonnegative signal is bounded
by the signal sum, which is the DC-bin magnitude (triangle inequality, with
each twiddle factor of modulus one). -/
theorem abs_dftBin_le_sum (x : List ℚ) (hx : ∀ v ∈ x, 0 ≤ v) (k : ℕ) :
    Complex.abs (dftBin x k) ≤ ((x.sum : ℚ) : ℝ) := by
  unfold dftBin
  refine le_trans (Complex.abs.sum_le _ _) ?_
  have heach : ∀ n ∈ Finset.range x.length,
      Complex.abs (((x.getD n 0 : ℚ) : ℂ) *
        Complex.exp (Complex.ofReal
          (-(2 * Real.pi * (k : ℝ) * (n : ℝ) / (x.length : ℝ))) * Complex.I))
      = ((x.getD n 0 : ℚ) : ℝ) := by
    intro n _
    rw [map_mul, Complex.abs_exp_ofReal_mul_I, mul_one]
    have h : ((x.getD n 0 : ℚ) : ℂ) = Complex.ofReal ((x.getD n 0 : ℚ) : ℝ) := by
      push_cast; rfl
    rw [h, Complex.abs_ofReal, abs_of_nonneg]
    exact_mod_cast getD_nonneg x hx n
  rw [Finset.sum_congr rfl heach]
  have h : ∑ n ∈ Finset.range x.length, ((x.getD n 0 : ℚ) : ℝ)
      = ((x.sum : ℚ) : ℝ) := by
    push_cast [← sum_range_getD x]
    rfl
  rw [h]

theorem npArgmaxGo_of_le (l : List ℝ) (a : ℝ) (h : ∀ b ∈ l, b ≤ a) :
    ∀ i j, npArgmaxGo l i a j = i := by
  induction l with
  | nil => intro i j; rfl
  | cons b rest ih =>
    intro i j
    rw [npArgmaxGo]
    rw [if_neg (not_lt.mpr (h b (List.mem_cons_self b rest)))]
    exact ih (fun c hc => h c (List.mem_cons_of_mem b hc)) i (j + 1)

/-- `numpy.argmax` returns the first maximum: when the head already bounds
the tail, the answer is index 0, ties included. -/
theorem npArgmax_of_head_max (a : ℝ) (l : List ℝ) (h : ∀ b ∈ l, b ≤ a) :
    npArgmax (a :: l) = 0 :=
  npArgmaxGo_of_le l a h 0 1

theorem rfftAbs_cons (x : List ℚ) :
    rfftAbs x = Complex.abs (dftBin x 0)
      :: (List.range (x.length / 2)).map
          (fun k => Complex.abs (dftBin x (k + 1))) := by
  unfold rfftAbs
  rw [List.range_succ_eq_map]
  simp [List.map_map, Function.comp]

/-- The consequence of running `argmax` over all bins of the raw,
non-de-trended signal: a componentwise-nonnegative roll-angle signal has its
largest DFT magnitude at the DC bin (and `numpy.argmax` resolves ties toward
it), so the code's natural-frequency estimate is exactly zero. -/
theorem omega0_of_nonneg (times signal : List ℚ)
    (hx : ∀ v ∈ signal, 0 ≤ v) :
    omega0 times signal = 0 := by
  unfold omega0 fft_omega0 fft
  have hsum : Complex.abs (dftBin signal 0) = ((signal.sum : ℚ) : ℝ) := by
    rw [dftBin_zero, ← Complex.ofReal_ratCast, Complex.abs_ofReal,
      abs_of_nonneg]
    exact_mod_cast List.sum_nonneg hx
  have hmax : npArgmax (rfftAbs signal) = 0 := by
    rw [rfftAbs_cons]
    apply npArgmax_of_head_max
    intro b hb
    simp only [List.mem_map, List.mem_range] at hb
    obtain ⟨k, _, rfl⟩ := hb
    rw [hsum]
    exact abs_dftBin_le_sum signal hx (k + 1)
  rw [hmax]
  have hfreq : ((rfftfreq signal.length).map
      (fun f => f * (1 / meanDt times))).getD 0 0 = 0 := by
    unfold rfftfreq
    rw [List.range_succ_eq_map]
    simp
  rw [hfreq]
  simp

theorem exp_neg_pi_div_two_mul_I :
    Complex.exp (Complex.ofReal (-(Real.pi / 2)) * Complex.I) = -Complex.I := by
  rw [Complex.ofReal_neg, neg_mul, Complex.exp_neg]
  have h : Complex.exp ((Real.pi / 2 : ℝ) * Complex.I) = Complex.I := by
    rw [Complex.exp_mul_I, ← Complex.ofReal_cos, ← Complex.ofReal_sin,
      Real.cos_pi_div_two, Real.sin_pi_div_two]
    simp
  rw [h, Complex.inv_I]

theorem exp_neg_half_pi_nat (m : ℕ) :
    Complex.exp (Complex.ofReal (-(Real.pi / 2 * m)) * Complex.I)
      = (-Complex.I) ^ m := by
  have h : Complex.ofReal (-(Real.pi / 2 * m)) * Complex.I
      = (m : ℂ) * (Complex.ofReal (-(Real.pi / 2)) * Complex.I) := by
    push_cast
    ring
  rw [h, Complex.exp_nat_mul, exp_neg_pi_div_two_mul_I]

/-- On a four-sample signal the twiddle factors are the powers of `-i`. -/
theorem dftBin_four (x : List ℚ) (h : x.length = 4) (k : ℕ) :
    dftBin x k = ∑ n ∈ Finset.range 4,
      ((x.getD n 0 : ℚ) : ℂ) * (-Complex.I) ^ (k * n) := by
  unfold dftBin
  rw [h]
  refine Finset.sum_congr rfl ?_
  intro n _
  congr 1
  have harg : (-(2 * Real.pi * (k : ℝ) * (n : ℝ) / ((4 : ℕ) : ℝ)))
      = -(Real.pi / 2 * ((k * n : ℕ) : ℝ)) := by
    push_cast
    ring
  rw [harg, exp_neg_half_pi_nat]

theorem dftBin_sig_one : dftBin [10, 11, 10, 11] 1 = 0 := by
  rw [dftBin_four [10, 11, 10, 11] (by norm_num)]
  rw [Finset.sum_range_succ, Finset.sum_range_succ, Finset.sum_range_succ,
    Finset.sum_range_succ, Finset.sum_range_zero]
  norm_num [pow_succ]

theorem dftBin_sig_two : dftBin [10, 11, 10, 11] 2 = -2 := by
  rw [dftBin_four [10, 11, 10, 11] (by norm_num)]
  rw [Finset.sum_range_succ, Finset.sum_range_succ, Finset.sum_range_succ,
    Finset.sum_range_succ, Finset.sum_range_zero]
  norm_num [pow_succ]

theorem rfftAbs_sig : rfftAbs [10, 11, 10, 11] = [42, 0, 2] := by
  have h0 : Complex.abs (dftBin [10, 11, 10, 11] 0) = 42 := by
    rw [dftBin_zero]
    norm_num [← Complex.ofReal_ratCast, Complex.abs_ofReal]
  have h2 : Complex.abs (dftBin [10, 11, 10, 11] 2) = 2 := by
    rw [dftBin_sig_two]
    rw [show ((-2 : ℂ)) = Complex.ofReal (-2) from by norm_num]
    rw [Complex.abs_ofReal]
    norm_num
  unfold rfftAbs
  norm_num [List.range_succ]
  exact ⟨h0, dftBin_sig_one, h2⟩

theorem dictLookup_append_of_not_mem {α : Type} (k : String) (v : α)
    (d : List (String × α)) (h : ¬ k ∈ dictKeys d) :
    dictLookup k (d ++ [(k, v)]) = some v := by
  induction d with
  | nil => simp [dictLookup]
  | cons p rest ih =>
    simp only [dictKeys, List.map_cons, List.mem_cons] at h
    push_neg at h
    have hk : (p.1 == k) = false := by
      simp only [beq_eq_false_iff_ne]
      exact fun e => h.1 e.symm
    simp only [List.cons_append, dictLookup, List.find?, hk]
    exact ih h.2

theorem meanDt_sig : meanDt [0, 1, 2, 3] = 1 := by
  norm_num [meanDt, npDiff]

/-- C3 (counterexample to the claim as stated): the code neither de-trends
the signal nor excludes the zero (DC) bin from the `argmax`. For the series
with times `0,1,2,3` and roll angles `10,11,10,11` (an oscillation on a
constant offset), the rfft magnitudes are `[42, 0, 2]`: the code's `argmax`
over all bins lands on the dominant DC bin and the estimate is `0`, whereas
the claim's "dominant frequency bin excluding the zero (DC) bin" is the bin
at frequency `1/2`, giving the angular frequency `pi` — a different value. -/
theorem C3_counterexample_dc_bin_dominates :
    omega0 [0, 1, 2, 3] [10, 11, 10, 11] = 0
    ∧ fft_omega0_excluding_dc (fft [0, 1, 2, 3] [10, 11, 10, 11]).1
        (fft [0, 1, 2, 3] [10, 11, 10, 11]).2 = Real.pi
    ∧ (0 : ℝ) ≠ Real.pi := by
  refine ⟨omega0_of_nonneg _ _ (by decide), ?_, (Real.pi_ne_zero).symm⟩
  unfold fft_omega0_excluding_dc fft
  rw [rfftAbs_sig]
  have hidx : npArgmax ([(42 : ℝ), 0, 2].drop 1) = 1 := by
    norm_num [npArgmax, npArgmaxGo]
  rw [hidx, meanDt_sig]
  norm_num [rfftfreq, List.range_succ]
  ring

/-- C3 (amended): when the natural frequency is fixed rather than fitted, it
is estimated once from the observed roll-angle series as the real-valued DFT
of the raw (not de-trended) signal at uniform step equal to the mean time
difference, taking the `argmax` of the magnitudes over all bins — the zero
(DC) bin included — times `2*pi`; consequently (1) any componentwise
nonnegative roll-angle series (one whose oscillation never crosses zero)
yields the estimate `0`, and (2) the fixed value is injected under the key
`omega0` into every trial's parameter set, identically across trials. -/
theorem C3_fft_omega0_all_bins_and_injection :
    (∀ times signal : List ℚ, signal.length = times.length →
      2 ≤ times.length → times.Chain' (· < ·) → (∀ v ∈ signal, 0 ≤ v) →
      omega0 times signal = 0)
    ∧ (∀ (st : RollDecayState) (x : List ℚ), st.omega_regression = false →
      dictLookup "omega0" (trialParameters st x) = some st.omega0_fixed) := by
  constructor
  · intro times signal _ _ _ hx
    exact omega0_of_nonneg times signal hx
  · intro st x hw
    simp only [trialParameters, hw, if_false, Bool.false_eq_true]
    rw [dictInsert_of_not_mem _ _ _ (omega0_not_mem_zip_keys st.variant x)]
    exact dictLookup_append_of_not_mem _ _ _ (omega0_not_mem_zip_keys st.variant x)

/-- Witness for C3 at concrete inputs: a strictly positive two-sample series
gets the zero estimate, and a fixed-frequency estimator injects its stored
`omega0` value into a concrete trial's parameter dict. -/
theorem C3_witness :
    omega0 [0, 1] [1, 2] = 0
    ∧ dictLookup "omega0"
        (trialParameters (initRollDecay rollDecayVariant [] [] false 3) [5])
      = some 3 :=
  ⟨C3_fft_omega0_all_bins_and_injection.1 [0, 1] [1, 2] rfl (by decide)
    (List.chain'_pair.mpr (by decide)) (by decide),
   C3_fft_omega0_all_bins_and_injection.2
    (initRollDecay rollDecayVariant [] [] false 3) [5] rfl⟩
